import Mathlib

/-!
Shallow embedding of the employee-management backend
(`models/models.go`, `controllers/controllers.go`) and proofs of the
behavioural claims about its CRUD handlers.

The MongoDB collection is modelled as a list of documents in insertion
order; the driver operations `InsertOne`, `UpdateOne`, `DeleteOne` and
cursor iteration are modelled by explicit functions on that list.
JSON bodies are modelled as the encoded strings (without the trailing
newline that Go's `json.Encoder` appends, and assuming field values
need no JSON escaping).
-/

namespace EmployeeManagement

/-- Model of `bson.ObjectID` (a 12-byte id), represented by its
24-character lowercase hex string. -/
structure ObjectID where
  hex : String
deriving DecidableEq

/-- The zero value of `bson.ObjectID` in Go: all zero bytes.  This is the
value an `Employee`'s `ID` field holds when the JSON payload carried no
`id`, and the value the `omitempty` bson/json tags treat as empty. -/
def zeroObjectID : ObjectID := ⟨"000000000000000000000000"⟩

/-- Hex digits accepted by `encoding/hex.Decode` (both cases). -/
def isHexChar (c : Char) : Bool :=
  (48 ≤ c.toNat && c.toNat ≤ 57) ||
  (97 ≤ c.toNat && c.toNat ≤ 102) ||
  (65 ≤ c.toNat && c.toNat ≤ 70)

/-- Model of `bson.ObjectIDFromHex`: succeeds exactly on 24-character hex
strings (normalising to lowercase, as the decoded bytes forget case);
otherwise fails with the driver's error message. -/
def hexCharToLower (c : Char) : Char :=
  if 65 ≤ c.toNat && c.toNat ≤ 70 then Char.ofNat (c.toNat + 32) else c

def objectIDFromHex (s : String) : Except String ObjectID :=
  if s.length == 24 && s.toList.all isHexChar then
    Except.ok ⟨String.mk (s.toList.map hexCharToLower)⟩
  else
    Except.error "the provided hex string is not a valid ObjectID"

/-- Model of `models.Employee` (`models/models.go`).  The field tags are
modelled in `validateEmployee` (validate tags), `insertOneDoc` and
`bson` handling (`bson:"...,omitempty"`), and `encodeEmployee`
(`json:"...,omitempty"`). -/
structure Employee where
  id : ObjectID
  name : String
  email : String
  phone : String
  department : String
deriving DecidableEq

/-- Modelled from the spec: the email-syntax check performed by the
third-party `validator` library for the `email` tag is not part of this
repository's sources; the spec requires `email` to be "non-empty and
RFC-plausible".  A string is taken to be RFC-plausible when it contains
exactly one at sign, preceded by a non-empty local part and followed by
a non-empty domain containing a dot, with no spaces. -/
def emailPlausible (s : String) : Bool :=
  let cs := s.toList
  let atSign := Char.ofNat 64
  let dom := (cs.dropWhile (fun c => !(c == atSign))).drop 1
  cs.count atSign == 1 &&
  !(cs.takeWhile (fun c => !(c == atSign))).isEmpty &&
  !dom.isEmpty && dom.contains (Char.ofNat 46) &&
  !(cs.contains (Char.ofNat 32))

/-- One violation reported by `validate.Struct`: the struct field name,
the tag that failed, and the tag parameter (empty for the tags used
here). -/
structure FieldError where
  field : String
  tag : String
  param : String
deriving DecidableEq

/-- Model of `validate.Struct` on `models.Employee` with the tags of
`models/models.go`: `Name`, `Phone`, `Department` carry `required`;
`Email` carries `required,email`.  The validator checks a field's tags
in order and reports at most the first failing tag per field, and
fields are visited in struct order (`ID` has no validate tag). -/
def validateEmployee (e : Employee) : List FieldError :=
  (if e.name == "" then [⟨"Name", "required", ""⟩] else []) ++
  (if e.email == "" then [⟨"Email", "required", ""⟩]
   else if !(emailPlausible e.email) then [⟨"Email", "email", ""⟩] else []) ++
  (if e.phone == "" then [⟨"Phone", "required", ""⟩] else []) ++
  (if e.department == "" then [⟨"Department", "required", ""⟩] else [])

/-- The message `formatValidationErrors` builds for one violation
(`controllers/controllers.go`, the `switch tag` statement). -/
def validationMessage (fe : FieldError) : String :=
  match fe.tag with
  | "required" => "Field \x27" ++ fe.field ++ "\x27 is required"
  | "min" => "Field \x27" ++ fe.field ++ "\x27 must be at least " ++ fe.param
  | "max" => "Field \x27" ++ fe.field ++ "\x27 must be at most " ++ fe.param
  | "gt" => "Field \x27" ++ fe.field ++ "\x27 must be greater than " ++ fe.param
  | "gte" =>
      "Field \x27" ++ fe.field ++ "\x27 must be greater than or equal to " ++ fe.param
  | "lt" => "Field \x27" ++ fe.field ++ "\x27 must be less than " ++ fe.param
  | "lte" =>
      "Field \x27" ++ fe.field ++ "\x27 must be less than or equal to " ++ fe.param
  | "email" => "Field \x27" ++ fe.field ++ "\x27 must be a valid email address"
  | t => "Field \x27" ++ fe.field ++ "\x27 failed validation on the \x27" ++ t ++ "\x27 tag"

/-- Model of `formatValidationErrors`: one message per violation, joined
with `", "` by `strings.Join`. -/
def formatValidationErrors (errs : List FieldError) : String :=
  String.intercalate ", " (errs.map validationMessage)

/-- The MongoDB employee collection, as the list of its documents in
insertion order. -/
abbrev Store := List Employee

/-- A JSON object with the given pre-encoded fields. -/
def jsonObj (fields : List String) : String :=
  "\x7b" ++ String.intercalate "," fields ++ "\x7d"

/-- One JSON string-valued field. -/
def jsonField (k v : String) : String :=
  "\"" ++ k ++ "\":\"" ++ v ++ "\""

/-- Model of `json.NewEncoder(w).Encode(map[string]string{"error": msg})`. -/
def encodeError (msg : String) : String := jsonObj [jsonField "error" msg]

/-- Model of `json.NewEncoder(w).Encode(map[string]string{"message": msg})`. -/
def encodeMessage (msg : String) : String := jsonObj [jsonField "message" msg]

/-- Model of `encoding/json` on one `models.Employee`: every field tag
carries `omitempty`, so the zero `ObjectID` and empty strings are
omitted; the id is rendered as its hex string. -/
def encodeEmployee (e : Employee) : String :=
  jsonObj
    ((if e.id == zeroObjectID then [] else [jsonField "id" e.id.hex]) ++
     (if e.name == "" then [] else [jsonField "name" e.name]) ++
     (if e.email == "" then [] else [jsonField "email" e.email]) ++
     (if e.phone == "" then [] else [jsonField "phone" e.phone]) ++
     (if e.department == "" then [] else [jsonField "department" e.department]))

/-- Model of `encoding/json` on the `[]models.Employee` slice built by
`getAllEmployees`: that slice starts `nil` and only grows by `append`,
so it is `nil` exactly when it is empty, and Go encodes a nil slice as
`null` (not `[]`). -/
def encodeEmployeeSlice (es : List Employee) : String :=
  if es.isEmpty then "null"
  else "[" ++ String.intercalate "," (es.map encodeEmployee) ++ "]"

/-- Model of `collection.InsertOne` together with the `bson:"_id,omitempty"`
tag: a zero id is omitted from the marshalled document and the driver
generates `fresh` for it; a non-zero id is marshalled and persisted
as given.  The document is appended to the collection. -/
def insertOneDoc (fresh : ObjectID) (s : Store) (e : Employee) : Store :=
  if e.id == zeroObjectID then s ++ [{ e with id := fresh }] else s ++ [e]

/-- The effect of `bson.M{"$set": employee}` on one matched document:
every field of `employee` present after `omitempty` marshalling is
set, absent fields are left alone, and `_id` (set only to its own
value, see `mongoUpdateOne`) stays `d.id`. -/
def applySet (d e : Employee) : Employee :=
  { id := d.id,
    name := if e.name == "" then d.name else e.name,
    email := if e.email == "" then d.email else e.email,
    phone := if e.phone == "" then d.phone else e.phone,
    department := if e.department == "" then d.department else e.department }

/-- Model of `collection.UpdateOne` with filter `{_id: oid}` and update
`{$set: bson(e)}`: the first document whose id is `oid` is updated and
the matched count returned; zero matches is not an error.  When the
marshalled `$set` document contains an `_id` (a non-zero `e.id`)
different from the matched document's `_id`, the server rejects the
write because `_id` is immutable. -/
def mongoUpdateOne : Store → ObjectID → Employee → Except String (Store × Nat)
  | [], _, _ => Except.ok ([], 0)
  | d :: rest, oid, e =>
    if d.id = oid then
      if e.id ≠ zeroObjectID ∧ e.id ≠ oid then
        Except.error "the _id field is immutable"
      else
        Except.ok (applySet d e :: rest, 1)
    else
      match mongoUpdateOne rest oid e with
      | Except.error m => Except.error m
      | Except.ok (s2, n) => Except.ok (d :: s2, n)

/-- Model of `collection.DeleteOne` with filter `{_id: oid}`: removes the
first document whose id is `oid` and returns the deleted count. -/
def mongoDeleteOne : Store → ObjectID → Store × Nat
  | [], _ => ([], 0)
  | d :: rest, oid =>
    if d.id = oid then (rest, 1)
    else
      let p := mongoDeleteOne rest oid
      (d :: p.1, p.2)

/-- Model of `insertOneEmployee`: inserts the employee (store failures
are out of scope of the model, so this always succeeds). -/
def insertOneEmployee (fresh : ObjectID) (s : Store) (e : Employee) : Store :=
  insertOneDoc fresh s e

/-- Model of `updateOneEmployee`: parse the path id with
`bson.ObjectIDFromHex` (wrapping a parse failure as
`"invalid employee ID format: ..."`), then run `UpdateOne` (wrapping a
driver failure as `"error updating employee: ..."`).  A zero matched
count is not an error. -/
def updateOneEmployee (s : Store) (employeeID : String) (e : Employee) :
    Except String Store :=
  match objectIDFromHex employeeID with
  | Except.error m => Except.error ("invalid employee ID format: " ++ m)
  | Except.ok oid =>
    match mongoUpdateOne s oid e with
    | Except.error m => Except.error ("error updating employee: " ++ m)
    | Except.ok p => Except.ok p.1

/-- Model of `deleteOneEmployee`: parse the path id (failure wrapped as
`"invalid employee ID format: ..."`), run `DeleteOne`, and fail with
`"no employee found with ID: ..."` when the deleted count is zero. -/
def deleteOneEmployee (s : Store) (employeeID : String) : Except String Store :=
  match objectIDFromHex employeeID with
  | Except.error m => Except.error ("invalid employee ID format: " ++ m)
  | Except.ok oid =>
    let p := mongoDeleteOne s oid
    if p.2 = 0 then Except.error ("no employee found with ID: " ++ employeeID)
    else Except.ok p.1

/-- Model of the `mongo.Cursor` produced by `collection.Find`: the
documents it yields (each decoding to an employee or failing with a
decode error), and the terminal error `cur.Err()` reports after
iteration, if any. -/
structure Cursor where
  items : List (Except String Employee)
  finalErr : Option String

/-- The cursor a healthy store produces: every document decodes and the
cursor terminates cleanly. -/
def storeCursor (s : Store) : Cursor :=
  ⟨s.map Except.ok, none⟩

/-- The `for cur.Next` loop of `getAllEmployees`: appends decoded
employees to the accumulator and returns the wrapped decode error as
soon as one document fails to decode, discarding the accumulator. -/
def cursorCollect : List (Except String Employee) → List Employee →
    Except String (List Employee)
  | [], acc => Except.ok acc
  | Except.error m :: _, _ => Except.error ("error decoding employee: " ++ m)
  | Except.ok e :: rest, acc => cursorCollect rest (acc ++ [e])

/-- Model of `getAllEmployees`: iterate the cursor, then check
`cur.Err()`; any failure discards the accumulated slice and returns
only the error. -/
def getAllEmployees (cur : Cursor) : Except String (List Employee) :=
  match cursorCollect cur.items [] with
  | Except.error m => Except.error m
  | Except.ok es =>
    match cur.finalErr with
    | some m => Except.error ("cursor error: " ++ m)
    | none => Except.ok es

/-- An HTTP response: status code (200 when the handler never calls
`WriteHeader`) and the JSON body written. -/
structure Response where
  status : Nat
  body : String
deriving DecidableEq

/-- Model of the `GetAllEmployees` handler: 500 with a wrapped error on
store failure, otherwise 200 with the encoded slice. -/
def GetAllEmployees (cur : Cursor) : Response :=
  match getAllEmployees cur with
  | Except.error m => ⟨500, encodeError ("Failed to retrieve employees: " ++ m)⟩
  | Except.ok es => ⟨200, encodeEmployeeSlice es⟩

/-- Model of the `CreateEmployee` handler.  `body` is the result of
`json.Decode` on the request body (`Except.error` for malformed JSON).
Returns the response and the store after the request; `fresh` is the
id the driver would generate for an id-less insert. -/
def CreateEmployee (fresh : ObjectID) (s : Store) (body : Except String Employee) :
    Response × Store :=
  match body with
  | Except.error m => (⟨400, encodeError ("Invalid request payload: " ++ m)⟩, s)
  | Except.ok employee =>
    let errs := validateEmployee employee
    if errs.isEmpty then
      (⟨200, encodeMessage "Employee created successfully"⟩,
       insertOneEmployee fresh s employee)
    else
      (⟨400, encodeError (formatValidationErrors errs)⟩, s)

/-- Model of the `UpdateEmployee` handler: decode (400 on failure),
validate (400 on failure), then `updateOneEmployee` (500 on failure,
including the bad-id parse error), else 200 with the success message. -/
def UpdateEmployee (s : Store) (employeeID : String) (body : Except String Employee) :
    Response × Store :=
  match body with
  | Except.error m => (⟨400, encodeError ("Invalid request payload: " ++ m)⟩, s)
  | Except.ok employee =>
    let errs := validateEmployee employee
    if errs.isEmpty then
      match updateOneEmployee s employeeID employee with
      | Except.error m => (⟨500, encodeError ("Failed to update employee: " ++ m)⟩, s)
      | Except.ok s2 => (⟨200, encodeMessage "Employee updated successfully"⟩, s2)
    else
      (⟨400, encodeError (formatValidationErrors errs)⟩, s)

/-- Model of the `DeleteEmployee` handler: any `deleteOneEmployee` error
(bad id or not found) becomes 500, else 200 with the success message. -/
def DeleteEmployee (s : Store) (employeeID : String) : Response × Store :=
  match deleteOneEmployee s employeeID with
  | Except.error m => (⟨500, encodeError ("Failed to delete employee: " ++ m)⟩, s)
  | Except.ok s2 => (⟨200, encodeMessage "Employee deleted successfully"⟩, s2)

/-- Do two documents agree on the four business fields (name, email,
phone, department)? -/
def sameBusinessFields (d e : Employee) : Bool :=
  d.name == e.name && d.email == e.email &&
  d.phone == e.phone && d.department == e.department

/-- Follows the spec's words on validation failure ("one human-readable
message per violated field"): a required message for each missing
field and an email-syntax message for a present but malformed email,
in struct field order. -/
def specViolationMessages (e : Employee) : List String :=
  (if e.name = "" then ["Field \x27Name\x27 is required"] else []) ++
  (if e.email = "" then ["Field \x27Email\x27 is required"]
   else if emailPlausible e.email = false then
     ["Field \x27Email\x27 must be a valid email address"] else []) ++
  (if e.phone = "" then ["Field \x27Phone\x27 is required"] else []) ++
  (if e.department = "" then ["Field \x27Department\x27 is required"] else [])

/-- A well-formed 24-hex identifier used in concrete states. -/
def hexA : String := "aaaaaaaaaaaaaaaaaaaaaaaa"

/-- A second, distinct well-formed identifier. -/
def hexB : String := "bbbbbbbbbbbbbbbbbbbbbbbb"

/-- The `ObjectID` behind `hexA`. -/
def fidA : ObjectID := ⟨hexA⟩

/-- Ann, the spec's concrete valid payload (no id supplied). -/
def annPayload : Employee := ⟨zeroObjectID, "Ann", "ann@x.com", "123", "Eng"⟩

/-- Ann as stored under `fidA`. -/
def annStored : Employee := { annPayload with id := fidA }

/-- Bob, a second valid payload. -/
def bobPayload : Employee := ⟨zeroObjectID, "Bob", "bob@y.org", "999", "Ops"⟩

section Lemmas

lemma validate_nil_iff (e : Employee) :
    validateEmployee e = [] ↔
      (e.name ≠ "" ∧ e.phone ≠ "" ∧ e.department ≠ "" ∧
       e.email ≠ "" ∧ emailPlausible e.email = true) := by
  unfold validateEmployee
  by_cases hn : e.name = "" <;> by_cases hm : e.email = "" <;>
    by_cases hp : e.phone = "" <;> by_cases hd : e.department = "" <;>
    by_cases he : emailPlausible e.email = true <;>
    simp_all

lemma validate_nil_fields (e : Employee) (h : validateEmployee e = []) :
    e.name ≠ "" ∧ e.phone ≠ "" ∧ e.department ≠ "" ∧
    e.email ≠ "" ∧ emailPlausible e.email = true :=
  (validate_nil_iff e).mp h

lemma format_eq_spec_messages (e : Employee) :
    formatValidationErrors (validateEmployee e) =
      String.intercalate ", " (specViolationMessages e) := by
  unfold formatValidationErrors validateEmployee specViolationMessages
  by_cases hn : e.name = "" <;> by_cases hm : e.email = "" <;>
    by_cases hp : e.phone = "" <;> by_cases hd : e.department = "" <;>
    by_cases he : emailPlausible e.email = true <;>
    simp_all [validationMessage]

lemma mongoUpdateOne_no_match (s : Store) (oid : ObjectID) (e : Employee)
    (hnone : ∀ d ∈ s, d.id ≠ oid) :
    mongoUpdateOne s oid e = Except.ok (s, 0) := by
  induction s with
  | nil => rfl
  | cons d rest ih =>
    have hd : ¬(d.id = oid) := hnone d (List.mem_cons_self d rest)
    rw [mongoUpdateOne, if_neg hd,
      ih (fun x hx => hnone x (List.mem_cons_of_mem d hx))]

lemma mongoUpdateOne_id_immutable (s : Store) (oid : ObjectID) (e : Employee)
    (hbad : e.id ≠ zeroObjectID ∧ e.id ≠ oid)
    (hin : ∃ d ∈ s, d.id = oid) :
    mongoUpdateOne s oid e = Except.error "the _id field is immutable" := by
  induction s with
  | nil => simp at hin
  | cons d rest ih =>
    by_cases hd : d.id = oid
    · rw [mongoUpdateOne, if_pos hd, if_pos hbad]
    · obtain ⟨y, hy, hyid⟩ := hin
      rcases List.mem_cons.mp hy with rfl | hy
      · exact absurd hyid hd
      · rw [mongoUpdateOne, if_neg hd, ih ⟨y, hy, hyid⟩]

lemma mongoUpdateOne_first_match (s : Store) (oid : ObjectID) (e : Employee)
    (hok : ¬(e.id ≠ zeroObjectID ∧ e.id ≠ oid))
    (hin : ∃ d ∈ s, d.id = oid) :
    ∃ pre d post, s = pre ++ d :: post ∧ d.id = oid ∧ (∀ x ∈ pre, x.id ≠ oid) ∧
      mongoUpdateOne s oid e = Except.ok (pre ++ applySet d e :: post, 1) := by
  induction s with
  | nil => simp at hin
  | cons d rest ih =>
    by_cases hd : d.id = oid
    · refine ⟨[], d, rest, by simp, hd, by simp, ?_⟩
      rw [mongoUpdateOne, if_pos hd, if_neg hok]
      simp
    · obtain ⟨y, hy, hyid⟩ := hin
      rcases List.mem_cons.mp hy with rfl | hy
      · exact absurd hyid hd
      · obtain ⟨pre, d2, post, hs, hd2, hpre, heq⟩ := ih ⟨y, hy, hyid⟩
        refine ⟨d :: pre, d2, post, by rw [hs]; rfl, hd2, ?_, ?_⟩
        · intro x hx
          rcases List.mem_cons.mp hx with rfl | hx
          · exact hd
          · exact hpre x hx
        · rw [mongoUpdateOne, if_neg hd, heq]
          rfl

lemma applySet_valid (d e : Employee) (hval : validateEmployee e = []) :
    applySet d e = { id := d.id, name := e.name, email := e.email,
                     phone := e.phone, department := e.department } := by
  obtain ⟨hn, hp, hdep, hm, _⟩ := validate_nil_fields e hval
  simp [applySet, hn, hp, hdep, hm]

lemma mongoDeleteOne_no_match (s : Store) (oid : ObjectID)
    (hnone : ∀ d ∈ s, d.id ≠ oid) :
    mongoDeleteOne s oid = (s, 0) := by
  induction s with
  | nil => rfl
  | cons d rest ih =>
    have hd : ¬(d.id = oid) := hnone d (List.mem_cons_self d rest)
    rw [mongoDeleteOne, if_neg hd,
      ih (fun x hx => hnone x (List.mem_cons_of_mem d hx))]

lemma mongoDeleteOne_match_count (s : Store) (oid : ObjectID)
    (hin : ∃ d ∈ s, d.id = oid) :
    (mongoDeleteOne s oid).2 = 1 := by
  induction s with
  | nil => simp at hin
  | cons d rest ih =>
    by_cases hd : d.id = oid
    · rw [mongoDeleteOne, if_pos hd]
    · obtain ⟨y, hy, hyid⟩ := hin
      rcases List.mem_cons.mp hy with rfl | hy
      · exact absurd hyid hd
      · rw [mongoDeleteOne, if_neg hd]
        exact ih ⟨y, hy, hyid⟩

lemma mongoDeleteOne_not_mem (s : Store) (oid : ObjectID)
    (huniq : List.Pairwise (fun a b => a.id ≠ b.id) s)
    (hin : ∃ d ∈ s, d.id = oid) :
    ∀ x ∈ (mongoDeleteOne s oid).1, x.id ≠ oid := by
  induction s with
  | nil => simp at hin
  | cons d rest ih =>
    rcases List.pairwise_cons.mp huniq with ⟨hd_rest, hrest⟩
    by_cases hd : d.id = oid
    · intro x hx hxo
      rw [mongoDeleteOne, if_pos hd] at hx
      exact hd_rest x hx (hd.trans hxo.symm)
    · intro x hx
      rw [mongoDeleteOne, if_neg hd] at hx
      rcases List.mem_cons.mp hx with rfl | hx
      · exact hd
      · obtain ⟨y, hy, hyid⟩ := hin
        rcases List.mem_cons.mp hy with rfl | hy
        · exact absurd hyid hd
        · exact ih hrest ⟨y, hy, hyid⟩ x hx

lemma cursorCollect_ok_items (s : List Employee) :
    ∀ acc, cursorCollect (s.map Except.ok) acc = Except.ok (acc ++ s) := by
  induction s with
  | nil => intro acc; simp [cursorCollect]
  | cons e rest ih =>
    intro acc
    rw [List.map_cons, cursorCollect, ih (acc ++ [e])]
    simp

lemma getAll_storeCursor (s : Store) :
    getAllEmployees (storeCursor s) = Except.ok s := by
  simp [getAllEmployees, storeCursor, cursorCollect_ok_items s []]

lemma cursorCollect_error (items : List (Except String Employee))
    (hm : ∃ m, Except.error m ∈ items) :
    ∀ acc, ∃ m2, cursorCollect items acc = Except.error m2 := by
  induction items with
  | nil => simp at hm
  | cons i rest ih =>
    intro acc
    cases i with
    | error m => exact ⟨"error decoding employee: " ++ m, rfl⟩
    | ok e =>
      obtain ⟨m, hmem⟩ := hm
      rcases List.mem_cons.mp hmem with h | h
      · exact absurd h (by simp)
      · exact ih ⟨m, h⟩ (acc ++ [e])

end Lemmas

/-- C1: validation, as shared by Create and Update, succeeds iff name,
phone and department are non-empty and email is non-empty and passes
the email-syntax check; when it fails, both handlers answer HTTP 400
with an error string holding exactly one message per violated field,
joined into a single string. -/
theorem validation_iff_and_messages (e : Employee) (fresh : ObjectID)
    (s : Store) (employeeID : String) :
    (validateEmployee e = [] ↔
      (e.name ≠ "" ∧ e.phone ≠ "" ∧ e.department ≠ "" ∧
       e.email ≠ "" ∧ emailPlausible e.email = true)) ∧
    (validateEmployee e ≠ [] →
      CreateEmployee fresh s (Except.ok e) =
        (⟨400, encodeError (String.intercalate ", " (specViolationMessages e))⟩, s) ∧
      UpdateEmployee s employeeID (Except.ok e) =
        (⟨400, encodeError (String.intercalate ", " (specViolationMessages e))⟩, s)) := by
  refine ⟨validate_nil_iff e, fun hne => ?_⟩
  have hemp : (validateEmployee e).isEmpty = false := by
    cases hval : validateEmployee e with
    | nil => exact absurd hval hne
    | cons a l => rfl
  constructor
  · unfold CreateEmployee
    rw [← format_eq_spec_messages e]
    simp [hemp]
  · unfold UpdateEmployee
    rw [← format_eq_spec_messages e]
    simp [hemp]

/-- C1 witness: a payload with empty name and department and a malformed
email is rejected by Create with the three joined messages. -/
theorem validation_iff_and_messages_witness :
    validateEmployee ⟨zeroObjectID, "", "not-an-email", "123", ""⟩ ≠ [] ∧
    CreateEmployee fidA [] (Except.ok ⟨zeroObjectID, "", "not-an-email", "123", ""⟩) =
      (⟨400, encodeError ("Field \x27Name\x27 is required, Field \x27Email\x27 must be a valid email address, Field \x27Department\x27 is required")⟩, []) :=
  ⟨by decide,
   by
    have h := (validation_iff_and_messages
      ⟨zeroObjectID, "", "not-an-email", "123", ""⟩ fidA [] "xyz").2 (by decide)
    exact h.1.trans (by rfl)⟩

/-- C2 counterexample: Update on the syntactically invalid identifier
"xyz" with a valid payload answers HTTP 500, not the claimed 400. -/
theorem update_bad_id_counterexample :
    (UpdateEmployee [] "xyz" (Except.ok annPayload)).1.status = 500 ∧
    (UpdateEmployee [] "xyz" (Except.ok annPayload)).1.status ≠ 400 :=
  ⟨rfl, by decide⟩

/-- C2 (amended): on a syntactically invalid path identifier, Update
answers 400 when the payload fails decoding or validation, but when the
payload is valid the bad-identifier failure is surfaced as a store
error with HTTP 500. -/
theorem update_bad_id_status (s : Store) (employeeID : String)
    (e : Employee) (m dm : String)
    (hbad : objectIDFromHex employeeID = Except.error m) :
    (validateEmployee e = [] →
      (UpdateEmployee s employeeID (Except.ok e)).1.status = 500) ∧
    (validateEmployee e ≠ [] →
      (UpdateEmployee s employeeID (Except.ok e)).1.status = 400) ∧
    (UpdateEmployee s employeeID (Except.error dm)).1.status = 400 := by
  refine ⟨fun hval => ?_, fun hne => ?_, rfl⟩
  · unfold UpdateEmployee updateOneEmployee
    rw [hbad]
    simp [hval]
  · have hemp : (validateEmployee e).isEmpty = false := by
      cases hval : validateEmployee e with
      | nil => exact absurd hval hne
      | cons a l => rfl
    unfold UpdateEmployee
    simp [hemp]

/-- C2 amended witness: at id "xyz", a valid payload gets 500 and an
invalid one gets 400. -/
theorem update_bad_id_status_witness :
    objectIDFromHex "xyz" =
      Except.error "the provided hex string is not a valid ObjectID" ∧
    validateEmployee annPayload = [] ∧
    (UpdateEmployee [] "xyz" (Except.ok annPayload)).1.status = 500 :=
  ⟨rfl, by decide,
   (update_bad_id_status [] "xyz" annPayload
      "the provided hex string is not a valid ObjectID" "d" rfl).1 (by decide)⟩

/-- C3: Update on a well-formed identifier matching zero records, with a
valid payload, answers 200 with the success message and leaves the
store unchanged. -/
theorem update_missing_id_succeeds (s : Store) (employeeID : String)
    (oid : ObjectID) (e : Employee)
    (hid : objectIDFromHex employeeID = Except.ok oid)
    (hnone : ∀ d ∈ s, d.id ≠ oid)
    (hval : validateEmployee e = []) :
    UpdateEmployee s employeeID (Except.ok e) =
      (⟨200, encodeMessage "Employee updated successfully"⟩, s) := by
  simp [UpdateEmployee, updateOneEmployee, hid, hval,
    mongoUpdateOne_no_match s oid e hnone]

/-- C3 witness: updating `hexA` in the empty store with Ann succeeds. -/
theorem update_missing_id_succeeds_witness :
    objectIDFromHex hexA = Except.ok fidA ∧
    validateEmployee annPayload = [] ∧
    UpdateEmployee [] hexA (Except.ok annPayload) =
      (⟨200, encodeMessage "Employee updated successfully"⟩, []) :=
  ⟨rfl, by decide,
   update_missing_id_succeeds [] hexA fidA annPayload rfl
     (by intro d hd; cases hd) (by decide)⟩

/-- C4: Delete fails with the wrapped invalid-identifier error on a
malformed identifier, fails with the not-found error when the
identifier is well-formed but zero records were removed, succeeds
otherwise, and the handler reports every such failure as HTTP 500. -/
theorem delete_trichotomy (s : Store) (employeeID : String) (m : String)
    (oid : ObjectID) :
    (objectIDFromHex employeeID = Except.error m →
      deleteOneEmployee s employeeID =
        Except.error ("invalid employee ID format: " ++ m) ∧
      (DeleteEmployee s employeeID).1.status = 500) ∧
    (objectIDFromHex employeeID = Except.ok oid → (∀ d ∈ s, d.id ≠ oid) →
      deleteOneEmployee s employeeID =
        Except.error ("no employee found with ID: " ++ employeeID) ∧
      (DeleteEmployee s employeeID).1.status = 500) ∧
    (objectIDFromHex employeeID = Except.ok oid → (∃ d ∈ s, d.id = oid) →
      (∃ s2, deleteOneEmployee s employeeID = Except.ok s2) ∧
      (DeleteEmployee s employeeID).1.status = 200) := by
  refine ⟨fun hbad => ?_, fun hid hnone => ?_, fun hid hin => ?_⟩
  · have h : deleteOneEmployee s employeeID =
        Except.error ("invalid employee ID format: " ++ m) := by
      simp [deleteOneEmployee, hbad]
    exact ⟨h, by simp [DeleteEmployee, h]⟩
  · have h : deleteOneEmployee s employeeID =
        Except.error ("no employee found with ID: " ++ employeeID) := by
      simp [deleteOneEmployee, hid, mongoDeleteOne_no_match s oid hnone]
    exact ⟨h, by simp [DeleteEmployee, h]⟩
  · have h : deleteOneEmployee s employeeID =
        Except.ok (mongoDeleteOne s oid).1 := by
      simp [deleteOneEmployee, hid, mongoDeleteOne_match_count s oid hin]
    exact ⟨⟨(mongoDeleteOne s oid).1, h⟩, by simp [DeleteEmployee, h]⟩

/-- C4 witness: on the one-record store, a malformed id and a well-formed
but absent id both yield 500, while the present id yields 200. -/
theorem delete_trichotomy_witness :
    (DeleteEmployee [annStored] "xyz").1.status = 500 ∧
    (DeleteEmployee [annStored] hexB).1.status = 500 ∧
    (DeleteEmployee [annStored] hexA).1.status = 200 :=
  ⟨((delete_trichotomy [annStored] "xyz"
      "the provided hex string is not a valid ObjectID" fidA).1 rfl).2,
   ((delete_trichotomy [annStored] hexB "m" ⟨hexB⟩).2.1 rfl (by decide)).2,
   ((delete_trichotomy [annStored] hexA "m" fidA).2.2 rfl
      ⟨annStored, List.mem_cons_self annStored [], rfl⟩).2⟩

/-- C5: creating a valid id-less payload over a store holding no record
with the same four business fields answers 200 with the literal success
body, and a subsequent List returns the grown store, in which exactly
one record carries those four fields — the new one, under the freshly
assigned non-zero identifier. -/
theorem create_then_list_one_match (s : Store) (e : Employee) (fresh : ObjectID)
    (hid : e.id = zeroObjectID) (hval : validateEmployee e = [])
    (hfresh : fresh ≠ zeroObjectID)
    (hnodup : ∀ d ∈ s, sameBusinessFields d e = false) :
    (CreateEmployee fresh s (Except.ok e)).1 =
      ⟨200, encodeMessage "Employee created successfully"⟩ ∧
    encodeMessage "Employee created successfully" =
      "\x7b\"message\":\"Employee created successfully\"\x7d" ∧
    getAllEmployees (storeCursor (CreateEmployee fresh s (Except.ok e)).2) =
      Except.ok (s ++ [{ e with id := fresh }]) ∧
    (s ++ [{ e with id := fresh }]).filter (fun d => sameBusinessFields d e) =
      [{ e with id := fresh }] ∧
    fresh ≠ zeroObjectID := by
  have hstore : (CreateEmployee fresh s (Except.ok e)).2 =
      s ++ [{ e with id := fresh }] := by
    simp [CreateEmployee, hval, insertOneEmployee, insertOneDoc, hid]
  refine ⟨by simp [CreateEmployee, hval], rfl,
    by rw [hstore]; exact getAll_storeCursor _, ?_, hfresh⟩
  have hfilter : s.filter (fun d => sameBusinessFields d e) = [] := by
    rw [List.filter_eq_nil_iff]
    intro d hd
    simp [hnodup d hd]
  rw [List.filter_append, hfilter]
  simp [sameBusinessFields]

/-- C5 witness: posting Ann into the empty store. -/
theorem create_then_list_one_match_witness :
    validateEmployee annPayload = [] ∧
    (CreateEmployee fidA [] (Except.ok annPayload)).1 =
      ⟨200, encodeMessage "Employee created successfully"⟩ ∧
    getAllEmployees (storeCursor (CreateEmployee fidA [] (Except.ok annPayload)).2) =
      Except.ok [annStored] :=
  ⟨by decide,
   (create_then_list_one_match [] annPayload fidA rfl (by decide) (by decide)
      (fun d hd => absurd hd (List.not_mem_nil d))).1,
   (create_then_list_one_match [] annPayload fidA rfl (by decide) (by decide)
      (fun d hd => absurd hd (List.not_mem_nil d))).2.2.1⟩

/-- C6: a successful Update on a well-formed identifier matching an
existing record replaces exactly the matched record's four business
fields with the payload's values, keeps the record's identifier, and
leaves every other record in the store untouched. -/
theorem update_replaces_fields (s : Store) (employeeID : String)
    (oid : ObjectID) (e : Employee)
    (hid : objectIDFromHex employeeID = Except.ok oid)
    (hmatch : ∃ d ∈ s, d.id = oid)
    (hsucc : (UpdateEmployee s employeeID (Except.ok e)).1.status = 200) :
    ∃ pre d post, s = pre ++ d :: post ∧ d.id = oid ∧
      (∀ x ∈ pre, x.id ≠ oid) ∧
      (UpdateEmployee s employeeID (Except.ok e)).2 =
        pre ++ { id := d.id, name := e.name, email := e.email,
                 phone := e.phone, department := e.department } :: post := by
  cases hvl : validateEmployee e with
  | cons a l =>
    exfalso
    have h400 : (UpdateEmployee s employeeID (Except.ok e)).1.status = 400 := by
      simp [UpdateEmployee, hvl]
    rw [h400] at hsucc
    exact absurd hsucc (by decide)
  | nil =>
    by_cases hbadid : e.id ≠ zeroObjectID ∧ e.id ≠ oid
    · exfalso
      have herr := mongoUpdateOne_id_immutable s oid e hbadid hmatch
      have h500 : (UpdateEmployee s employeeID (Except.ok e)).1.status = 500 := by
        simp [UpdateEmployee, updateOneEmployee, hid, hvl, herr]
      rw [h500] at hsucc
      exact absurd hsucc (by decide)
    · obtain ⟨pre, d, post, hs, hdid, hpre, heq⟩ :=
        mongoUpdateOne_first_match s oid e hbadid hmatch
      refine ⟨pre, d, post, hs, hdid, hpre, ?_⟩
      rw [← applySet_valid d e hvl]
      simp [UpdateEmployee, updateOneEmployee, hid, hvl, heq]

/-- C6 witness: updating Ann's record with Bob's payload rewrites the four
fields in place and keeps `fidA`. -/
theorem update_replaces_fields_witness :
    objectIDFromHex hexA = Except.ok fidA ∧
    (UpdateEmployee [annStored] hexA (Except.ok bobPayload)).1.status = 200 ∧
    (∃ pre d post, [annStored] = pre ++ d :: post ∧ d.id = fidA ∧
      (∀ x ∈ pre, x.id ≠ fidA) ∧
      (UpdateEmployee [annStored] hexA (Except.ok bobPayload)).2 =
        pre ++ { id := d.id, name := bobPayload.name, email := bobPayload.email,
                 phone := bobPayload.phone,
                 department := bobPayload.department } :: post) :=
  ⟨rfl, by decide,
   update_replaces_fields [annStored] hexA fidA bobPayload rfl
     ⟨annStored, List.mem_cons_self annStored [], rfl⟩ (by decide)⟩

/-- C7: deleting a well-formed identifier present in a store with distinct
ids answers 200 with the success message, and the store List then
returns no longer contains a record with that identifier. -/
theorem delete_existing_removes (s : Store) (employeeID : String)
    (oid : ObjectID)
    (hid : objectIDFromHex employeeID = Except.ok oid)
    (huniq : List.Pairwise (fun a b => a.id ≠ b.id) s)
    (hin : ∃ d ∈ s, d.id = oid) :
    (DeleteEmployee s employeeID).1 =
      ⟨200, encodeMessage "Employee deleted successfully"⟩ ∧
    (∀ x ∈ (DeleteEmployee s employeeID).2, x.id ≠ oid) ∧
    getAllEmployees (storeCursor (DeleteEmployee s employeeID).2) =
      Except.ok (DeleteEmployee s employeeID).2 := by
  have hdel : deleteOneEmployee s employeeID =
      Except.ok (mongoDeleteOne s oid).1 := by
    simp [deleteOneEmployee, hid, mongoDeleteOne_match_count s oid hin]
  have hsnd : (DeleteEmployee s employeeID).2 = (mongoDeleteOne s oid).1 := by
    simp [DeleteEmployee, hdel]
  refine ⟨by simp [DeleteEmployee, hdel], ?_, getAll_storeCursor _⟩
  rw [hsnd]
  exact mongoDeleteOne_not_mem s oid huniq hin

/-- C7 witness: deleting `hexA` from the one-record store empties it. -/
theorem delete_existing_removes_witness :
    objectIDFromHex hexA = Except.ok fidA ∧
    (DeleteEmployee [annStored] hexA).1 =
      ⟨200, encodeMessage "Employee deleted successfully"⟩ ∧
    (∀ x ∈ (DeleteEmployee [annStored] hexA).2, x.id ≠ fidA) :=
  ⟨rfl,
   (delete_existing_removes [annStored] hexA fidA rfl (List.pairwise_singleton _ _)
      ⟨annStored, List.mem_cons_self annStored [], rfl⟩).1,
   (delete_existing_removes [annStored] hexA fidA rfl (List.pairwise_singleton _ _)
      ⟨annStored, List.mem_cons_self annStored [], rfl⟩).2.1⟩

/-- C8: when the cursor yields a document that fails to decode or fails
at the end of iteration, List surfaces only an error — HTTP 500 with
the wrapped message — and the partially accumulated records are
discarded, never returned. -/
theorem list_failure_discards (cur : Cursor)
    (hfail : (∃ m, Except.error m ∈ cur.items) ∨ cur.finalErr ≠ none) :
    ∃ m, getAllEmployees cur = Except.error m ∧
      GetAllEmployees cur =
        ⟨500, encodeError ("Failed to retrieve employees: " ++ m)⟩ := by
  have herr : ∃ m, getAllEmployees cur = Except.error m := by
    cases hcc : cursorCollect cur.items [] with
    | error m => exact ⟨m, by simp [getAllEmployees, hcc]⟩
    | ok es =>
      cases hfe : cur.finalErr with
      | some m => exact ⟨"cursor error: " ++ m, by simp [getAllEmployees, hcc, hfe]⟩
      | none =>
        exfalso
        rcases hfail with ⟨m, hmem⟩ | hne
        · obtain ⟨m2, h2⟩ := cursorCollect_error cur.items ⟨m, hmem⟩ []
          rw [h2] at hcc
          exact absurd hcc (by simp)
        · exact absurd hfe hne
  obtain ⟨m, hm⟩ := herr
  exact ⟨m, hm, by simp [GetAllEmployees, hm]⟩

/-- C8 witness: a cursor yielding one good document and then a decode
failure produces a 500 and no employee data. -/
theorem list_failure_discards_witness :
    Except.error "boom" ∈
      (Cursor.mk [Except.ok annStored, Except.error "boom"] none).items ∧
    (∃ m, GetAllEmployees (Cursor.mk [Except.ok annStored, Except.error "boom"] none) =
      ⟨500, encodeError ("Failed to retrieve employees: " ++ m)⟩) :=
  ⟨by simp,
   (list_failure_discards (Cursor.mk [Except.ok annStored, Except.error "boom"] none)
      (Or.inl ⟨"boom", by simp⟩)).elim (fun m hm => ⟨m, hm.2⟩)⟩

/-- C9: with zero records and a cleanly terminating cursor, List answers
HTTP 200 and the body is the JSON `null` (Go encodes the nil slice as
`null`), not the empty array `[]`. -/
theorem list_empty_returns_null :
    GetAllEmployees (storeCursor []) = ⟨200, "null"⟩ ∧
    encodeEmployeeSlice [] = "null" ∧ "null" ≠ "[]" :=
  ⟨rfl, rfl, by decide⟩

/-- C10: a valid Create payload carrying a non-zero identifier is
persisted under that client-supplied identifier — the `omitempty` tag
only omits a zero id — so no store-generated id replaces it. -/
theorem create_client_id_persisted (s : Store) (e : Employee)
    (fresh : ObjectID)
    (hid : e.id ≠ zeroObjectID) (hval : validateEmployee e = []) :
    CreateEmployee fresh s (Except.ok e) =
      (⟨200, encodeMessage "Employee created successfully"⟩, s ++ [e]) := by
  have hb : (e.id == zeroObjectID) = false := by simp [hid]
  simp [CreateEmployee, hval, insertOneEmployee, insertOneDoc, hb]

/-- C10 witness: posting Ann together with the id `hexA` stores her under
`hexA`, not under the id the driver would have generated. -/
theorem create_client_id_persisted_witness :
    annStored.id ≠ zeroObjectID ∧ validateEmployee annStored = [] ∧
    CreateEmployee ⟨hexB⟩ [] (Except.ok annStored) =
      (⟨200, encodeMessage "Employee created successfully"⟩, [annStored]) :=
  ⟨by decide, by decide,
   create_client_id_persisted [] annStored ⟨hexB⟩ (by decide) (by decide)⟩

end EmployeeManagement
